import Mathlib

/-!
Shallow embedding of the SLIP stream decoder in `src/HighLevelAnalyzer.py`
(Saleae Logic 2 high-level analyzer).

The Python class `Hla` keeps three fields of mutable state (`escape`,
`buffer`, `frame_start_time`) and processes one input frame per `decode`
call, emitting `AnalyzerFrame` objects of type `slip_packet` or
`slip_error`.  Here the state is the structure `SlipState`, the per-byte
loop body of `Hla.decode` is `stepByte`, the whole loop is `decodeBytes`,
and the `decode` entry point (including the non-data early return and the
`None`-vs-list return shape) is `decode`.  Timestamps are opaque totally
ordered values in the source; they are embedded as `Nat`.
-/

namespace Slip

/-- SLIP END marker, `END = 0xC0` in the source. -/
def END : Nat := 0xC0

/-- SLIP ESC marker, `ESC = 0xDB` in the source. -/
def ESC : Nat := 0xDB

/-- Escape continuation for a literal END, `ESC_END = 0xDC`. -/
def ESC_END : Nat := 0xDC

/-- Escape continuation for a literal ESC, `ESC_ESC = 0xDD`. -/
def ESC_ESC : Nat := 0xDD

/-- A value stored under a key of the data dictionary of an output frame.
The source stores strings and integers ("Keep frame data to primitive
types"); `bytes` is included so that a claim about a field holding an
ordered byte sequence is statable. -/
inductive FrameValue where
  | str (s : String)
  | nat (n : Nat)
  | bytes (bs : List Nat)
deriving DecidableEq, Repr

/-- An output `AnalyzerFrame(type, start_time, end_time, data)`, with the
`data` dictionary embedded as an association list in insertion order. -/
structure AnalyzerFrame where
  type : String
  start_time : Nat
  end_time : Nat
  data : List (String × FrameValue)
deriving DecidableEq, Repr

/-- An input frame from the Async Serial analyzer: its `type` marker, the
byte list stored under the data key of `frame.data`, and the chunk-wide
start/end times. -/
structure InputFrame where
  type : String
  data : List Nat
  start_time : Nat
  end_time : Nat
deriving DecidableEq, Repr

/-- The mutable decoder state: `self.escape`, `self.buffer`,
`self.frame_start_time`. -/
structure SlipState where
  escape : Bool
  buffer : List Nat
  frame_start_time : Option Nat
deriving DecidableEq, Repr

/-- `Hla._reset_state` (also the state established by `__init__`):
`escape = False`, `buffer = bytearray()`, `frame_start_time = None`. -/
def initState : SlipState := ⟨false, [], none⟩

/-- Uppercase hexadecimal digit for `n < 16` (0–9, A–F). -/
def hexDigitChar (n : Nat) : Char :=
  if n < 10 then Char.ofNat (48 + n) else Char.ofNat (55 + n)

/-- Accumulate the uppercase base-16 digits of `n` (fuel-indexed so that it
is structural; `fuel = n + 1` always suffices). -/
def hexCore : Nat → Nat → List Char → List Char
  | 0, _, acc => acc
  | fuel + 1, n, acc =>
    let acc' := hexDigitChar (n % 16) :: acc
    if n / 16 = 0 then acc' else hexCore fuel (n / 16) acc'

/-- Python number formatting under the 02X format spec: uppercase hex,
zero-padded to at least two digits. -/
def format02X (n : Nat) : String :=
  let s := hexCore (n + 1) n []
  ⟨List.replicate (2 - s.length) '0' ++ s⟩

/-- The space-separated join of the 02X renderings of the payload bytes,
from `Hla._emit_packet_frame`. -/
def payload_hex (payload : List Nat) : String :=
  String.intercalate " " (payload.map format02X)

/-- `Hla._byte_spans`: fan the chunk-wide start/end times out to every byte
of the chunk (the `if not values` early return coincides with mapping over
the empty list). -/
def byte_spans (frame : InputFrame) : List (Nat × Nat × Nat) :=
  frame.data.map (fun b => (b, frame.start_time, frame.end_time))

/-- `Hla._emit_packet_frame(end_time)`: `None` when the buffer is empty,
otherwise a `slip_packet` frame whose span starts at `frame_start_time`
when set (a SaleaeTime object is always truthy) and at `end_time`
otherwise, carrying `payload_hex` and `length`. -/
def emit_packet_frame (s : SlipState) (end_time : Nat) : Option AnalyzerFrame :=
  if s.buffer = [] then none
  else
    some ⟨"slip_packet", s.frame_start_time.getD end_time, end_time,
      [("payload_hex", FrameValue.str (payload_hex s.buffer)),
       ("length", FrameValue.nat s.buffer.length)]⟩

/-- `Hla._emit_error_frame(end_time, message, offending_byte)`: builds a
`slip_error` frame and resets the state machine, returning both. -/
def emit_error_frame (s : SlipState) (end_time : Nat) (message : String)
    (offending_byte : Nat) : SlipState × AnalyzerFrame :=
  (initState,
   ⟨"slip_error", s.frame_start_time.getD end_time, end_time,
    [("message", FrameValue.str message),
     ("byte", FrameValue.nat offending_byte)]⟩)

/-- The body of the `for byte_val, byte_start, byte_end in ...` loop of
`Hla.decode`, for one byte: the `frame_start_time` bootstrap (skipped for a
boundary END), then the escape-continuation branch (with `self.escape =
False` after it, and a reset inside `_emit_error_frame` on a bad
continuation), the ESC branch (with its redundant second
`frame_start_time` check), the END branch (emit the packet if any, then
`_reset_state`), and the default append of `byte_val & 0xFF`. -/
def stepByte (s : SlipState) (byte_val byte_start byte_end : Nat) :
    SlipState × Option AnalyzerFrame :=
  let s := if s.frame_start_time = none ∧ byte_val ≠ END then
    { s with frame_start_time := some byte_start } else s
  if s.escape then
    if byte_val = ESC_END then
      ({ s with escape := false, buffer := s.buffer ++ [END] }, none)
    else if byte_val = ESC_ESC then
      ({ s with escape := false, buffer := s.buffer ++ [ESC] }, none)
    else
      let r := emit_error_frame s byte_end "Invalid escape sequence after 0xDB" byte_val
      ({ r.1 with escape := false }, some r.2)
  else if byte_val = ESC then
    let s := { s with escape := true }
    let s := if s.frame_start_time = none then
      { s with frame_start_time := some byte_start } else s
    (s, none)
  else if byte_val = END then
    (initState, emit_packet_frame s byte_end)
  else
    ({ s with buffer := s.buffer ++ [byte_val % 256] }, none)

/-- The whole byte loop of `Hla.decode`: thread the state through
`stepByte` and collect the emitted frames in order. -/
def decodeBytes : SlipState → List (Nat × Nat × Nat) → SlipState × List AnalyzerFrame
  | s, [] => (s, [])
  | s, (b, bs, be) :: rest =>
    let step := stepByte s b bs be
    let r := decodeBytes step.1 rest
    (r.1, step.2.toList ++ r.2)

/-- `Hla.decode(frame)`: ignore non-`data` frames, otherwise run the byte
loop over `_byte_spans(frame)`; return `None` when no frames were produced
and the list of frames otherwise. -/
def decode (s : SlipState) (frame : InputFrame) :
    SlipState × Option (List AnalyzerFrame) :=
  if frame.type ≠ "data" then (s, none)
  else
    let r := decodeBytes s (byte_spans frame)
    if r.2 = [] then (r.1, none) else (r.1, some r.2)

/-- A sequence of `decode` calls on one decoder instance, concatenating
the outputs in order (`None` contributing nothing). -/
def decodeCalls : SlipState → List InputFrame → SlipState × List AnalyzerFrame
  | s, [] => (s, [])
  | s, f :: fs =>
    let r1 := decode s f
    let r2 := decodeCalls r1.1 fs
    (r2.1, r1.2.getD [] ++ r2.2)

/-- Standard SLIP escaping of a payload, from the round-trip
properties: `0xC0 → 0xDB 0xDC`, `0xDB → 0xDB 0xDD`, all other bytes kept. -/
def slipEscape : List Nat → List Nat
  | [] => []
  | b :: rest =>
    (if b = END then [ESC, ESC_END]
     else if b = ESC then [ESC, ESC_ESC]
     else [b]) ++ slipEscape rest

/-- The `slip_packet` frame the decoder emits for a packet with decoded
payload `P` whose bytes all carry the span `(ts, te)`. -/
def pktFrame (ts te : Nat) (P : List Nat) : AnalyzerFrame :=
  ⟨"slip_packet", ts, te,
   [("payload_hex", FrameValue.str (payload_hex P)),
    ("length", FrameValue.nat P.length)]⟩

/-- The `slip_error` frame the decoder emits for an invalid escape
continuation `b` when the packet start time is `t` and the offending
end time of the offending byte is `be`. -/
def errFrame (t be b : Nat) : AnalyzerFrame :=
  ⟨"slip_error", t, be,
   [("message", FrameValue.str "Invalid escape sequence after 0xDB"),
    ("byte", FrameValue.nat b)]⟩

end Slip

namespace Slip

lemma stepByte_END_empty (bs be : Nat) : stepByte initState END bs be = (initState, none) := by
  simp [stepByte, initState, emit_packet_frame, END, ESC, ESC_END, ESC_ESC]

lemma stepByte_END_full (buf : List Nat) (t bs be : Nat) (hbuf : buf ≠ []) :
    stepByte ⟨false, buf, some t⟩ END bs be = (initState, some (pktFrame t be buf)) := by
  simp [stepByte, emit_packet_frame, pktFrame, hbuf, END, ESC, ESC_END, ESC_ESC]

lemma stepByte_data (buf : List Nat) (fst : Option Nat) (b bs be : Nat)
    (hE : b ≠ END) (hS : b ≠ ESC) (hlt : b < 256) :
    stepByte ⟨false, buf, fst⟩ b bs be =
      (⟨false, buf ++ [b], some (fst.getD bs)⟩, none) := by
  cases fst <;> simp [stepByte, hE, hS, Nat.mod_eq_of_lt hlt]

lemma stepByte_ESC (buf : List Nat) (fst : Option Nat) (bs be : Nat) :
    stepByte ⟨false, buf, fst⟩ ESC bs be = (⟨true, buf, some (fst.getD bs)⟩, none) := by
  cases fst <;> simp [stepByte, END, ESC, ESC_END, ESC_ESC]

lemma stepByte_escEnd (buf : List Nat) (fst : Option Nat) (bs be : Nat) :
    stepByte ⟨true, buf, fst⟩ ESC_END bs be =
      (⟨false, buf ++ [END], some (fst.getD bs)⟩, none) := by
  cases fst <;> simp [stepByte, END, ESC, ESC_END, ESC_ESC]

lemma stepByte_escEsc (buf : List Nat) (fst : Option Nat) (bs be : Nat) :
    stepByte ⟨true, buf, fst⟩ ESC_ESC bs be =
      (⟨false, buf ++ [ESC], some (fst.getD bs)⟩, none) := by
  cases fst <;> simp [stepByte, END, ESC, ESC_END, ESC_ESC]

lemma stepByte_escBad (buf : List Nat) (t b bs be : Nat)
    (h1 : b ≠ ESC_END) (h2 : b ≠ ESC_ESC) :
    stepByte ⟨true, buf, some t⟩ b bs be = (initState, some (errFrame t be b)) := by
  simp [stepByte, emit_error_frame, errFrame, initState, h1, h2]

lemma decodeBytes_append (s : SlipState) (l1 l2 : List (Nat × Nat × Nat)) :
    decodeBytes s (l1 ++ l2) =
      ((decodeBytes (decodeBytes s l1).1 l2).1,
       (decodeBytes s l1).2 ++ (decodeBytes (decodeBytes s l1).1 l2).2) := by
  induction l1 generalizing s with
  | nil => simp [decodeBytes]
  | cons x rest ih =>
    obtain ⟨b, bs, be⟩ := x
    simp [decodeBytes, ih]

lemma decodeBytes_slipEscape (ts te : Nat) (P : List Nat) :
    ∀ (buf : List Nat) (fst : Option Nat), (∀ b ∈ P, b < 256) →
    decodeBytes ⟨false, buf, fst⟩ ((slipEscape P).map (fun b => (b, ts, te))) =
      (⟨false, buf ++ P, if P = [] then fst else some (fst.getD ts)⟩, []) := by
  induction P with
  | nil => intro buf fst _; simp [slipEscape, decodeBytes]
  | cons b P ih =>
    intro buf fst h
    have hb : b < 256 := h b (List.mem_cons_self _ _)
    have hrest : ∀ x ∈ P, x < 256 := fun x hx => h x (List.mem_cons_of_mem _ hx)
    by_cases hE : b = END
    · subst hE
      simp only [slipEscape, if_pos rfl, List.cons_append, List.nil_append, List.append_eq,
        List.map_cons, decodeBytes, stepByte_ESC, stepByte_escEnd, Option.getD_some]
      rw [ih (buf ++ [END]) (some (fst.getD ts)) hrest]
      cases P <;> simp
    · by_cases hS : b = ESC
      · subst hS
        simp only [slipEscape, if_neg hE, if_pos rfl, List.cons_append, List.nil_append, List.append_eq,
          List.map_cons, decodeBytes, stepByte_ESC, stepByte_escEsc, Option.getD_some]
        rw [ih (buf ++ [ESC]) (some (fst.getD ts)) hrest]
        cases P <;> simp
      · simp only [slipEscape, if_neg hE, if_neg hS, List.cons_append, List.nil_append, List.append_eq,
          List.map_cons, decodeBytes, stepByte_data buf fst b ts te hE hS hb]
        rw [ih (buf ++ [b]) (some (fst.getD ts)) hrest]
        cases P <;> simp

lemma decodeBytes_segment (ts te : Nat) (P : List Nat) (hne : P ≠ [])
    (h : ∀ b ∈ P, b < 256) :
    decodeBytes initState ((slipEscape P ++ [END]).map (fun b => (b, ts, te))) =
      (initState, [pktFrame ts te P]) := by
  have hinit : (initState : SlipState) = ⟨false, [], none⟩ := rfl
  rw [List.map_append, decodeBytes_append, hinit,
    decodeBytes_slipEscape ts te P [] none h]
  simp only [if_neg hne, List.nil_append, Option.getD_none, List.map_cons, List.map_nil,
    decodeBytes, stepByte_END_full P ts ts te hne]
  simp [decodeBytes, initState]

lemma decodeBytes_frame (ts te : Nat) (P : List Nat) (hne : P ≠ [])
    (h : ∀ b ∈ P, b < 256) :
    decodeBytes initState ((END :: (slipEscape P ++ [END])).map (fun b => (b, ts, te))) =
      (initState, [pktFrame ts te P]) := by
  simp only [List.map_cons, decodeBytes, stepByte_END_empty]
  rw [decodeBytes_segment ts te P hne h]
  simp

lemma slipEscape_eq_self (P : List Nat) (h : ∀ b ∈ P, b ≠ END ∧ b ≠ ESC) :
    slipEscape P = P := by
  induction P with
  | nil => rfl
  | cons b P ih =>
    have hb := h b (List.mem_cons_self _ _)
    simp only [slipEscape, if_neg hb.1, if_neg hb.2, List.cons_append, List.nil_append]
    rw [ih (fun x hx => h x (List.mem_cons_of_mem _ hx))]

lemma byte_spans_mk (ty : String) (data : List Nat) (ts te : Nat) :
    byte_spans ⟨ty, data, ts, te⟩ = data.map (fun b => (b, ts, te)) := rfl

end Slip

namespace Slip

lemma decode_data (s : SlipState) (data : List Nat) (ts te : Nat) :
    decode s ⟨"data", data, ts, te⟩ =
      ((decodeBytes s (data.map (fun b => (b, ts, te)))).1,
       if (decodeBytes s (data.map (fun b => (b, ts, te)))).2 = [] then none
       else some (decodeBytes s (data.map (fun b => (b, ts, te)))).2) := by
  simp only [decode, byte_spans]
  split
  · simp_all
  · split <;> rfl

lemma decodeBytes_segments (ts te : Nat) (Ps : List (List Nat))
    (h : ∀ P ∈ Ps, P ≠ [] ∧ ∀ b ∈ P, b < 256) :
    decodeBytes initState
        ((Ps.flatMap (fun P => slipEscape P ++ [END])).map (fun b => (b, ts, te))) =
      (initState, Ps.map (pktFrame ts te)) := by
  induction Ps with
  | nil => simp [decodeBytes]
  | cons P Ps ih =>
    have hP := h P (List.mem_cons_self _ _)
    rw [List.flatMap_cons, List.map_append, decodeBytes_append,
      decodeBytes_segment ts te P hP.1 hP.2,
      ih (fun Q hQ => h Q (List.mem_cons_of_mem _ hQ))]
    simp

lemma decodeBytes_replicate_END (ts te n : Nat) :
    decodeBytes initState ((List.replicate n END).map (fun b => (b, ts, te))) =
      (initState, []) := by
  induction n with
  | zero => simp [decodeBytes]
  | succ n ih =>
    simp only [List.replicate_succ, List.map_cons, decodeBytes, stepByte_END_empty, ih]
    simp

end Slip

namespace Slip

/-- C1 counterexample: the claim quantifies over every byte sequence `P`
free of literal `0xC0`/`0xDB`, but for the empty sequence the chunk
`END + P + END = [END, END]` produces no event at all (the decoder treats
an END with an empty buffer as a silent boundary), not exactly one
`slip_packet` with empty payload. -/
theorem C1_counterexample :
    decode initState ⟨"data", [END, END], 0, 1⟩ = (initState, none) := by
  decide

/-- C1 (amended to nonempty `P`): for every nonempty byte sequence `P`
containing no literal `0xC0` and no literal `0xDB`, decoding the chunk
`END + P + END` from the initial state yields exactly one `slip_packet`
whose decoded payload is `P` (carried as `payload_hex`, the space-separated
uppercase hex rendering of `P`, with `length = |P|`). -/
theorem C1_roundtrip_nonempty (P : List Nat) (ts te : Nat) (hne : P ≠ [])
    (hP : ∀ b ∈ P, b < 256 ∧ b ≠ END ∧ b ≠ ESC) :
    decode initState ⟨"data", END :: (P ++ [END]), ts, te⟩ =
      (initState, some [pktFrame ts te P]) := by
  have h256 : ∀ b ∈ P, b < 256 := fun b hb => (hP b hb).1
  have hse : slipEscape P = P := slipEscape_eq_self P (fun b hb => (hP b hb).2)
  have key := decodeBytes_frame ts te P hne h256
  rw [hse] at key
  rw [decode_data, key]
  simp

/-- Witness for `C1_roundtrip_nonempty` at `P = [0x01, 0x02]`. -/
theorem C1_roundtrip_nonempty_witness :
    decode initState ⟨"data", [END, 0x01, 0x02, END], 0, 1⟩ =
      (initState, some [pktFrame 0 1 [0x01, 0x02]]) :=
  C1_roundtrip_nonempty [0x01, 0x02] 0 1 (by decide) (by decide)

/-- C2: SLIP-encoding any payload that contains literal `0xC0` and/or
`0xDB` bytes via the standard substitutions (`0xC0 → 0xDB 0xDC`,
`0xDB → 0xDB 0xDD`), framing with END markers, and decoding reproduces the
original payload exactly: the escape continuations `0xDC`/`0xDD` append
literal `0xC0`/`0xDB` to the buffer. -/
theorem C2_escape_roundtrip (P : List Nat) (ts te : Nat)
    (h256 : ∀ b ∈ P, b < 256) (hesc : ∃ b ∈ P, b = END ∨ b = ESC) :
    decode initState ⟨"data", END :: (slipEscape P ++ [END]), ts, te⟩ =
      (initState, some [pktFrame ts te P]) := by
  obtain ⟨b, hb, _⟩ := hesc
  have hne : P ≠ [] := List.ne_nil_of_mem hb
  rw [decode_data, decodeBytes_frame ts te P hne h256]
  simp

/-- Witness for `C2_escape_roundtrip` at `P = [0xC0, 0xDB]`. -/
theorem C2_escape_roundtrip_witness :
    decode initState ⟨"data", END :: (slipEscape [0xC0, 0xDB] ++ [END]), 0, 1⟩ =
      (initState, some [pktFrame 0 1 [0xC0, 0xDB]]) :=
  C2_escape_roundtrip [0xC0, 0xDB] 0 1 (by decide) (by decide)

/-- C5 counterexample: the packet emitted for the chunk `[END, 0x01, END]`
carries the keys `payload_hex` (a hex string, not an ordered byte
sequence) and `length`; there is no `payload` key in its data. -/
theorem C5_counterexample :
    decode initState ⟨"data", [END, 0x01, END], 0, 1⟩ =
      (initState, some [⟨"slip_packet", 0, 1,
        [("payload_hex", FrameValue.str "01"), ("length", FrameValue.nat 1)]⟩]) ∧
    List.lookup "payload"
      [("payload_hex", FrameValue.str "01"), ("length", FrameValue.nat 1)] = none :=
  ⟨by decide, by decide⟩

/-- C5 (amended): every emitted `slip_packet` frame carries exactly the
fields `payload_hex` (the decoded bytes rendered as a space-separated
uppercase two-digit-hex string) and `length` (the number of decoded
bytes). -/
theorem C5_packet_fields (s : SlipState) (end_time : Nat) (f : AnalyzerFrame)
    (h : emit_packet_frame s end_time = some f) :
    f.type = "slip_packet" ∧
      f.data = [("payload_hex", FrameValue.str (payload_hex s.buffer)),
                ("length", FrameValue.nat s.buffer.length)] := by
  by_cases hb : s.buffer = []
  · simp [emit_packet_frame, hb] at h
  · simp only [emit_packet_frame, if_neg hb, Option.some.injEq] at h
    subst h
    exact ⟨rfl, rfl⟩

/-- Witness for `C5_packet_fields` with buffer `[0x2A]`. -/
theorem C5_packet_fields_witness :
    (⟨"slip_packet", 4, 9,
      [("payload_hex", FrameValue.str "2A"), ("length", FrameValue.nat 1)]⟩ :
        AnalyzerFrame).type = "slip_packet" ∧
    (⟨"slip_packet", 4, 9,
      [("payload_hex", FrameValue.str "2A"), ("length", FrameValue.nat 1)]⟩ :
        AnalyzerFrame).data =
      [("payload_hex", FrameValue.str (payload_hex (SlipState.mk false [0x2A] (some 4)).buffer)),
       ("length", FrameValue.nat (SlipState.mk false [0x2A] (some 4)).buffer.length)] :=
  C5_packet_fields ⟨false, [0x2A], some 4⟩ 9 _ (by decide)

/-- C6: a single data chunk containing several complete END-delimited
frames back-to-back yields all the packets as one ordered sequence, in
order of occurrence within the chunk. -/
theorem C6_multi_packet_chunk (Ps : List (List Nat)) (ts te : Nat) (hne : Ps ≠ [])
    (h : ∀ P ∈ Ps, P ≠ [] ∧ ∀ b ∈ P, b < 256) :
    decode initState
        ⟨"data", END :: Ps.flatMap (fun P => slipEscape P ++ [END]), ts, te⟩ =
      (initState, some (Ps.map (pktFrame ts te))) := by
  have key := decodeBytes_segments ts te Ps h
  rw [decode_data]
  simp only [List.map_cons, decodeBytes, stepByte_END_empty, key]
  simp [hne]

/-- Witness for `C6_multi_packet_chunk` at the example
`[END, 0xAA, END, 0xBB, END]`, yielding payloads `[0xAA]` then `[0xBB]`. -/
theorem C6_multi_packet_chunk_witness :
    decode initState ⟨"data", [END, 0xAA, END, 0xBB, END], 0, 1⟩ =
      (initState, some [pktFrame 0 1 [0xAA], pktFrame 0 1 [0xBB]]) :=
  C6_multi_packet_chunk [[0xAA], [0xBB]] 0 1 (by decide) (by decide)

/-- C7: for every `N ≥ 1`, a chunk of `N` consecutive END bytes fed to the
decoder in its initial state produces no output and leaves the decoder in
its initial state (empty buffer, escape false, no packet start time): a
boundary END never sets `frame_start_time`. -/
theorem C7_idle_boundaries (n ts te : Nat) (_hn : 1 ≤ n) :
    decode initState ⟨"data", List.replicate n END, ts, te⟩ = (initState, none) := by
  rw [decode_data, decodeBytes_replicate_END]
  simp

/-- Witness for `C7_idle_boundaries` at `N = 3`. -/
theorem C7_idle_boundaries_witness :
    decode initState ⟨"data", List.replicate 3 END, 0, 1⟩ = (initState, none) :=
  C7_idle_boundaries 3 0 1 (by decide)

/-- C9: a frame whose type marker is not `"data"` produces no output and
leaves the decoder state unchanged, regardless of its content. -/
theorem C9_non_data_ignored (s : SlipState) (f : InputFrame) (h : f.type ≠ "data") :
    decode s f = (s, none) := by
  simp [decode, h]

/-- Witness for `C9_non_data_ignored` on an `"error"` frame fed to a
mid-packet state. -/
theorem C9_non_data_ignored_witness :
    decode ⟨true, [1], some 5⟩ ⟨"error", [0xC0, 7], 0, 1⟩ =
      (⟨true, [1], some 5⟩, none) :=
  C9_non_data_ignored _ _ (by decide)

end Slip

namespace Slip

lemma decodeBytes_cons (s : SlipState) (b bs be : Nat) (rest : List (Nat × Nat × Nat)) :
    decodeBytes s ((b, bs, be) :: rest) =
      ((decodeBytes (stepByte s b bs be).1 rest).1,
       (stepByte s b bs be).2.toList ++ (decodeBytes (stepByte s b bs be).1 rest).2) := rfl

lemma decode_eq_decodeBytes (s : SlipState) (f : InputFrame) (hf : f.type = "data") :
    (decode s f).1 = (decodeBytes s (byte_spans f)).1 ∧
      (decode s f).2.getD [] = (decodeBytes s (byte_spans f)).2 := by
  unfold decode
  rw [if_neg (by simp [hf])]
  dsimp only
  split
  · next hemp => simp [hemp]
  · simp

/-- C4: the decoder state carries across `decode` calls, so splitting a
sequence of byte events into any number of consecutive data-chunk calls
yields the same final state and the same concatenated sequence of output
events as processing all the byte events in a single pass. -/
theorem C4_chunk_boundary_independence : ∀ (frames : List InputFrame) (s : SlipState),
    (∀ f ∈ frames, f.type = "data") →
    decodeCalls s frames = decodeBytes s (frames.flatMap byte_spans) := by
  intro frames
  induction frames with
  | nil => intro s _; simp [decodeCalls, decodeBytes]
  | cons f fs ih =>
    intro s h
    obtain ⟨h1, h2⟩ := decode_eq_decodeBytes s f (h f (List.mem_cons_self _ _))
    simp only [decodeCalls, List.flatMap_cons, decodeBytes_append, h1, h2,
      ih (decodeBytes s (byte_spans f)).1 (fun g hg => h g (List.mem_cons_of_mem _ hg))]

/-- Witness for `C4_chunk_boundary_independence`: the example frame
split as `[END, 0x01]` then `[0x02, END]`. -/
theorem C4_chunk_boundary_independence_witness :
    decodeCalls initState [⟨"data", [END, 0x01], 0, 1⟩, ⟨"data", [0x02, END], 2, 3⟩] =
      decodeBytes initState
        ([(⟨"data", [END, 0x01], 0, 1⟩ : InputFrame),
          ⟨"data", [0x02, END], 2, 3⟩].flatMap byte_spans) :=
  C4_chunk_boundary_independence _ initState (by decide)

/-- C3: a byte consumed in the AFTER_ESCAPE state that is neither `0xDC`
nor `0xDD` makes the decoder emit exactly one `slip_error` frame with
message "Invalid escape sequence after 0xDB" and `byte` equal to the
offending value, and reset to the initial state; processing continues, and
a well-formed frame arriving immediately afterward decodes normally. -/
theorem C3_invalid_escape_error (s : SlipState) (b bs be t : Nat) (Q : List Nat)
    (ts te : Nat) (hesc : s.escape = true) (hfst : s.frame_start_time = some t)
    (h1 : b ≠ ESC_END) (h2 : b ≠ ESC_ESC) (hQne : Q ≠ []) (hQ : ∀ q ∈ Q, q < 256) :
    stepByte s b bs be = (initState, some (errFrame t be b)) ∧
    decodeBytes s
        ((b, bs, be) :: (END :: (slipEscape Q ++ [END])).map (fun v => (v, ts, te))) =
      (initState, [errFrame t be b, pktFrame ts te Q]) := by
  obtain ⟨esc, buf, fst⟩ := s
  dsimp only at hesc hfst
  subst hesc hfst
  have hstep := stepByte_escBad buf t b bs be h1 h2
  refine ⟨hstep, ?_⟩
  rw [decodeBytes_cons, hstep]
  dsimp only
  rw [decodeBytes_frame ts te Q hQne hQ]
  simp

/-- Witness for `C3_invalid_escape_error`: the `ESC, 0x55` example
followed by the well-formed frame `[END, 0x03, END]`. -/
theorem C3_invalid_escape_error_witness :
    stepByte ⟨true, [], some 7⟩ 0x55 1 2 = (initState, some (errFrame 7 2 0x55)) ∧
    decodeBytes ⟨true, [], some 7⟩
        ((0x55, 1, 2) :: (END :: (slipEscape [0x03] ++ [END])).map (fun v => (v, 4, 5))) =
      (initState, [errFrame 7 2 0x55, pktFrame 4 5 [0x03]]) :=
  C3_invalid_escape_error ⟨true, [], some 7⟩ 0x55 1 2 7 [0x03] 4 5 rfl rfl
    (by decide) (by decide) (by decide) (by decide)

/-- C8: the decoder emits a `slip_packet` from a byte step only when the
consumed byte is END (`0xC0`), the decoder is not in escape mode, and the
buffer is non-empty; in particular a stream that ends without a
terminating END never gets a packet emitted for its buffered bytes (there
is no flush path: an empty remainder of the byte loop emits nothing). -/
theorem C8_packet_only_at_end (s : SlipState) (b bs be : Nat) (f : AnalyzerFrame)
    (hf : (stepByte s b bs be).2 = some f) (hp : f.type = "slip_packet") :
    b = END ∧ s.escape = false ∧ s.buffer ≠ [] := by
  obtain ⟨esc, buf, fst⟩ := s
  cases esc <;> cases fst <;>
    simp only [stepByte, emit_packet_frame, emit_error_frame] at hf <;>
    split_ifs at hf
  all_goals
    try simp_all
  all_goals
    (subst hf;
     exact absurd hp (by decide : ¬("slip_error" : String) = "slip_packet"))

/-- Witness for `C8_packet_only_at_end`: an END consumed with buffer
`[0x05]` outside escape mode. -/
theorem C8_packet_only_at_end_witness :
    END = END ∧ (SlipState.mk false [0x05] (some 0)).escape = false ∧
      (SlipState.mk false [0x05] (some 0)).buffer ≠ [] :=
  C8_packet_only_at_end ⟨false, [0x05], some 0⟩ END 1 2 (pktFrame 0 2 [0x05])
    (by decide) (by decide)

lemma stepByte_inv (s : SlipState) (b bs be : Nat) :
    (stepByte s b bs be).1.escape = true →
      (stepByte s b bs be).1.frame_start_time ≠ none := by
  obtain ⟨esc, buf, fst⟩ := s
  cases esc <;> cases fst <;>
    simp only [stepByte, emit_packet_frame, emit_error_frame, initState] <;>
    split_ifs <;> simp_all

lemma decodeBytes_inv (l : List (Nat × Nat × Nat)) :
    ∀ s : SlipState, (s.escape = true → s.frame_start_time ≠ none) →
      ((decodeBytes s l).1.escape = true →
       (decodeBytes s l).1.frame_start_time ≠ none) := by
  induction l with
  | nil => intro s hs; simpa [decodeBytes] using hs
  | cons x rest ih =>
    intro s hs
    obtain ⟨b, bs, be⟩ := x
    simp only [decodeBytes]
    exact ih (stepByte s b bs be).1 (stepByte_inv s b bs be)

lemma decode_inv (s : SlipState) (f : InputFrame)
    (hs : s.escape = true → s.frame_start_time ≠ none) :
    ((decode s f).1.escape = true → (decode s f).1.frame_start_time ≠ none) := by
  unfold decode
  split
  · exact hs
  · dsimp only
    split <;> exact decodeBytes_inv (byte_spans f) s hs

lemma decodeCalls_inv (frames : List InputFrame) :
    ∀ s : SlipState, (s.escape = true → s.frame_start_time ≠ none) →
      ((decodeCalls s frames).1.escape = true →
       (decodeCalls s frames).1.frame_start_time ≠ none) := by
  induction frames with
  | nil => intro s hs; simpa [decodeCalls] using hs
  | cons f fs ih =>
    intro s hs
    simp only [decodeCalls]
    exact ih (decode s f).1 (decode_inv s f hs)

/-- C10: in every state reachable from the initial state by a sequence of
`decode` calls, if the escape flag is set then `frame_start_time` is set,
so an error emitted for an invalid escape continuation always has a packet
start time available as its span start. -/
theorem C10_escape_implies_start_time (frames : List InputFrame)
    (h : (decodeCalls initState frames).1.escape = true) :
    (decodeCalls initState frames).1.frame_start_time ≠ none :=
  decodeCalls_inv frames initState
    (fun hcontra => by simp [initState] at hcontra) h

/-- Witness for `C10_escape_implies_start_time`: one data chunk ending in
a pending ESC leaves the escape flag set with a start time recorded. -/
theorem C10_escape_implies_start_time_witness :
    (decodeCalls initState [⟨"data", [ESC], 0, 1⟩]).1.frame_start_time ≠ none :=
  C10_escape_implies_start_time [⟨"data", [ESC], 0, 1⟩] (by decide)

end Slip
